import Mathlib

/-!
Verification development for the sphere panorama-navigation subsystem of the
swi-metobs-backend service (`src/app/api/v3/endpoints/spheres.py` and
`src/app/models/spheres.py`).

Embedding conventions:
* Python floats are modelled as rationals (`ℚ`).  The transcendental geodesic
  functions `_haversine_distance` and `_calculate_bearing` are real-valued and
  not exactly representable, so they appear as abstract function parameters
  `hdist`/`hbear`; none of the properties below depends on their values beyond
  explicitly stated hypotheses (e.g. nonnegativity of distances).
* Python `dict`s (insertion-ordered, unique keys, last assignment wins while
  keeping the key's original position) are modelled as association lists with
  the operations `dictGet?` and `dictInsert` below.
* Python's `list.sort(key=lambda x: x[0])` is a stable sort by the distance
  component; `List.insertionSort` with the reflexive relation
  `leDist a b := a.distance ≤ b.distance` is also a stable sort by the same
  key, hence produces the identical list.
* Raising `HTTPException(status_code=c)` is modelled as `Except.error c`;
  `fastapi.HTTPException` derives from `Exception`, so a Python
  `except Exception` handler catches it — this is reflected where relevant.
* `datetime` values are carried as opaque strings; no property depends on them.
-/

namespace SwiSpheres

/-- Python dict lookup `d.get(k)` on an insertion-ordered association list. -/
def dictGet? {α : Type} (k : String) : List (String × α) → Option α
  | [] => none
  | (k₀, v) :: rest => if k₀ = k then some v else dictGet? k rest

/-- Python dict assignment `d[k] = v`: overwrite in place if the key exists
(keeping its position), otherwise append. -/
def dictInsert {α : Type} (k : String) (v : α) : List (String × α) → List (String × α)
  | [] => [(k, v)]
  | (k₀, v₀) :: rest => if k₀ = k then (k, v) :: rest else (k₀, v₀) :: dictInsert k v rest

/-- `app.models.spheres.SphereNode`: a link-only node (id + position). -/
structure SphereNode where
  id : String
  gps : List ℚ
deriving DecidableEq

/-- `app.models.spheres.SphereNodePanorama`: a full panorama node.
`base_url` is passed to the pydantic constructor by
`parse_geojson_feature_to_sphere_node` but the model declares no such field,
so pydantic (default `extra="ignore"`) silently drops it; accordingly it is
not a field here. -/
structure SphereNodePanorama where
  id : String
  gps : List ℚ
  panorama : String
  thumbnail : String
  links : List SphereNode
  author : Option String
  date : Option String
  project : Option String
  label : Option String
deriving DecidableEq

/-- The `conlist(float, min_length=2, max_length=3)` constraint on `gps`. -/
def conlistOk (v : List ℚ) : Bool :=
  decide (2 ≤ v.length) && decide (v.length ≤ 3)

/-- The `validate_hours` field validator on `gps` (`models/spheres.py:10-17`):
longitude in [-180,180], latitude in [-90,90], altitude (if present) < 10000. -/
def validate_hours (v : List ℚ) : Bool :=
  decide (-180 ≤ v.getD 0 0) && decide (v.getD 0 0 ≤ 180) &&
  decide (-90 ≤ v.getD 1 0) && decide (v.getD 1 0 ≤ 90) &&
  (if v.length = 3 then decide (v.getD 2 0 < 10000) else true)

/-- `str.startswith` on character lists (structurally recursive so that
concrete instances compute inside the kernel; extensionally Lean's
`String.startsWith`). -/
def charListPrefix : List Char → List Char → Bool
  | [], _ => true
  | _ :: _, [] => false
  | a :: as, b :: bs => a == b && charListPrefix as bs

/-- Python `s.startswith(pre)`. -/
def strStartsWith (s pre : String) : Bool :=
  charListPrefix pre.data s.data

/-- Python `s.endswith(post)`. -/
def strEndsWith (s post : String) : Bool :=
  charListPrefix post.data.reverse s.data.reverse

/-- Python `s.lower()` (the strings involved are ASCII). -/
def strLower (s : String) : String :=
  ⟨s.data.map Char.toLower⟩

/-- Syntactic stand-in for pydantic's `HttpUrl` type check: the URL must be an
absolute http(s) URL.  (Pydantic's full URL grammar is richer; every concrete
URL used in theorems below is accepted by both.) -/
def isHttpUrl (u : String) : Bool :=
  strStartsWith u "http://" || strStartsWith u "https://"

/-- The `validate_image_url` field validator on `panorama`/`thumbnail`
(`models/spheres.py:29-36`): the URL must end in a recognized image extension. -/
def validate_image_url (u : String) : Bool :=
  [".jpg", ".jpeg", ".png", ".gif", ".webp"].any fun ext =>
    strEndsWith (strLower u) ext

/-- All pydantic checks run by the `SphereNodePanorama` constructor on the
fields that `parse_geojson_feature_to_sphere_node` can actually fail on. -/
def panoramaChecks (gps : List ℚ) (panorama thumbnail : String) : Bool :=
  conlistOk gps && validate_hours gps &&
  isHttpUrl panorama && validate_image_url panorama &&
  isHttpUrl thumbnail && validate_image_url thumbnail

/-- Constructing a `SphereNodePanorama(...)`: pydantic validation either
produces the object or raises `ValidationError` (modelled as `Except.error`). -/
def SphereNodePanorama.mk? (id : String) (gps : List ℚ) (panorama thumbnail : String)
    (links : List SphereNode) (author date project label : Option String) :
    Except Unit SphereNodePanorama :=
  if panoramaChecks gps panorama thumbnail then
    .ok ⟨id, gps, panorama, thumbnail, links, author, date, project, label⟩
  else
    .error ()

/-- A GeoJSON feature's `geometry` member; `coordinates = none` models a
missing `"coordinates"` key (the code reads `geometry.get("coordinates", [])`). -/
structure Geometry where
  coordinates : Option (List ℚ)
deriving DecidableEq

/-- A GeoJSON feature's `properties` member; `none` models an absent key. -/
structure Properties where
  filename : Option String
  id : Option String
  thumbnail : Option String
  author : Option String
  date : Option String
  project : Option String
  label : Option String
deriving DecidableEq

/-- A raw GeoJSON feature as consumed by the parser. -/
structure Feature where
  properties : Properties
  geometry : Geometry
deriving DecidableEq

/-- Split a character list at every `'/'` (the recursion behind
`os.path.basename` below). -/
def splitOnSlash : List Char → List (List Char)
  | [] => [[]]
  | c :: rest =>
    let r := splitOnSlash rest
    if c = '/' then [] :: r
    else
      match r with
      | [] => [[c]]
      | h :: t => (c :: h) :: t

/-- `os.path.basename` for the forward-slash paths/URLs used here: the part
after the last `'/'`. -/
def basename (s : String) : String :=
  ⟨(splitOnSlash s.data).getLastD []⟩

/-- Python `str.rstrip("/")`. -/
def rstripSlash (s : String) : String :=
  ⟨(s.data.reverse.dropWhile (· = '/')).reverse⟩

/-- The nested `make_absolute_url` helper of
`parse_geojson_feature_to_sphere_node` (`spheres.py:286-295`). -/
def make_absolute_url (base_url : String) (url : String) : String :=
  if url = "" then ""
  else if strStartsWith url "http://" || strStartsWith url "https://" then url
  else if base_url ≠ "" && !strStartsWith url "/" then base_url ++ url
  else if base_url ≠ "" then rstripSlash base_url ++ url
  else url

/-- `parse_geojson_feature_to_sphere_node` (`spheres.py:262-311`).
Extracts coordinates (defaulting to `[0.0, 0.0]` when fewer than two are
present), resolves URLs, picks the id, and runs the pydantic constructor,
whose validation failure surfaces as an exception (`Except.error`). -/
def parse_geojson_feature_to_sphere_node (feature : Feature) (base_url : String) :
    Except Unit SphereNodePanorama :=
  let coordinates := feature.geometry.coordinates.getD []
  let gps :=
    if 2 ≤ coordinates.length then
      [coordinates.getD 0 0, coordinates.getD 1 0] ++
        (if coordinates.length = 3 then [coordinates.getD 2 0] else [])
    else [0, 0]
  let panorama_url := (feature.properties.filename).getD ""
  let node_id :=
    (feature.properties.id).getD (if panorama_url ≠ "" then basename panorama_url else "unknown")
  let absolute_panorama := make_absolute_url base_url panorama_url
  let absolute_thumbnail := make_absolute_url base_url ((feature.properties.thumbnail).getD "")
  SphereNodePanorama.mk? node_id gps absolute_panorama absolute_thumbnail []
    feature.properties.author feature.properties.date feature.properties.project
    feature.properties.label

/-- What the network returns for one project's GeoJSON URL: either a parsed
JSON document, or a failure (unreachable host, non-2xx status via
`raise_for_status`, or invalid JSON). -/
inductive FetchResult where
  | ok (typ : String) (features : List Feature)
  | fail
deriving DecidableEq

/-- One entry of `SphereProjectLinks` together with what its URL currently
serves (the oracle for the single HTTP GET the code performs). -/
structure Project where
  name : String
  fetch : FetchResult
  base_url : String
deriving DecidableEq

/-- `fetch_geojson_from_url` (`spheres.py:234-259`), on a cache miss (the TTL
cache at lines 236-241 only short-circuits repeat calls; no claim depends on
it).  Any failure of the GET / status check / JSON parse is converted to
`HTTPException(status_code=500)` — `Except.error 500`. -/
def fetch_geojson_from_url (r : FetchResult) : Except Nat (String × List Feature) :=
  match r with
  | .ok typ features => .ok (typ, features)
  | .fail => .error 500

/-- `if not node.project: node.project = project_name` (`spheres.py:332-333`):
Python truthiness makes both `None` and the empty string trigger the tag. -/
def tagProject (project_name : String) (node : SphereNodePanorama) : SphereNodePanorama :=
  match node.project with
  | none => { node with project := some project_name }
  | some s => if s = "" then { node with project := some project_name } else node

/-- The per-feature `try:` body of `get_all_sphere_nodes`
(`spheres.py:328-337`): parse the feature and append the (possibly
project-tagged) node; a feature whose parse raises is skipped. -/
def ingestFeature (project_name base_url : String)
    (acc : List SphereNodePanorama) (f : Feature) : List SphereNodePanorama :=
  match parse_geojson_feature_to_sphere_node f base_url with
  | .ok node => acc ++ [tagProject project_name node]
  | .error _ => acc

/-- The body of the per-project `try:` block in `get_all_sphere_nodes`
(`spheres.py:319-338`): fetch (propagating its `HTTPException` as
`Except.error`), check the `FeatureCollection` tag, and ingest each feature. -/
def processProject (p : Project) : Except Nat (List SphereNodePanorama) :=
  match fetch_geojson_from_url p.fetch with
  | .error e => .error e
  | .ok (typ, features) =>
    if typ = "FeatureCollection" then
      .ok (features.foldl (ingestFeature p.name p.base_url) [])
    else
      .ok []

/-- One iteration of the project loop of `get_all_sphere_nodes`: the
`except Exception: continue` around the body swallows any error —
including the `HTTPException(500)` raised by `fetch_geojson_from_url`,
which derives from `Exception`. -/
def accumulateProject (all_nodes : List SphereNodePanorama) (p : Project) :
    List SphereNodePanorama :=
  match processProject p with
  | .ok nodes => all_nodes ++ nodes
  | .error _ => all_nodes

/-- `get_all_sphere_nodes` (`spheres.py:314-343`).  Because every project's
body is under `except Exception: continue`, this function always returns a
plain list and can never propagate an error to its caller. -/
def get_all_sphere_nodes (projects : List Project) : List SphereNodePanorama :=
  projects.foldl accumulateProject []

/-- The process-wide mutable state of the subsystem: `_spatial_index`,
`_distance_matrix` and `_bearing_matrix` (`spheres.py:34-43`).  The auxiliary
`_position_grid` is also written by `add_node`, but no operation settled here
ever reads it (the matrix-based `find_neighbors` does not use the grid), so it
is omitted from the state. -/
structure SphereState where
  spatial_index : List (String × SphereNodePanorama)
  distance_matrix : List (String × List (String × ℚ))
  bearing_matrix : List (String × List (String × ℚ))
deriving DecidableEq

/-- The empty cold-start state. -/
def SphereState.empty : SphereState := ⟨[], [], []⟩

/-- `SpatialIndex.add_node` (`spheres.py:91-98`): index the node under its id
when it has at least two coordinates, else do nothing. -/
def add_node (st : SphereState) (node : SphereNodePanorama) : SphereState :=
  if 2 ≤ node.gps.length then
    { st with spatial_index := dictInsert node.id node st.spatial_index }
  else st

/-- `SpatialIndex._compute_distance_and_bearing_matrices` (`spheres.py:100-149`)
over the current index, with the geodesic functions abstracted as
`hdist lon1 lat1 lon2 lat2` / `hbear lon1 lat1 lon2 lat2`.  A row is created
for every indexed id; a node with fewer than two coordinates keeps an empty
row; the self entry is 0.0 in both matrices; every other pair gets the
computed distance and bearing (entries are written distance-and-bearing in
lockstep, so the two rows always share their key sequence). -/
def computeMatrices (hdist hbear : ℚ → ℚ → ℚ → ℚ → ℚ)
    (idx : List (String × SphereNodePanorama)) :
    List (String × List (String × ℚ)) × List (String × List (String × ℚ)) :=
  let node_ids := idx.map Prod.fst
  let rows := idx.map fun p =>
    let id1 := p.1
    let node1 := p.2
    if node1.gps.length < 2 then (id1, (([] : List (String × ℚ)), ([] : List (String × ℚ))))
    else
      (id1, node_ids.foldl (fun acc id2 =>
        if id2 = id1 then (acc.1 ++ [(id2, 0)], acc.2 ++ [(id2, 0)])
        else
          match dictGet? id2 idx with
          | some node2 =>
            if node2.gps.length < 2 then acc
            else
              (acc.1 ++ [(id2, hdist (node1.gps.getD 0 0) (node1.gps.getD 1 0)
                  (node2.gps.getD 0 0) (node2.gps.getD 1 0))],
               acc.2 ++ [(id2, hbear (node1.gps.getD 0 0) (node1.gps.getD 1 0)
                  (node2.gps.getD 0 0) (node2.gps.getD 1 0))])
          | none => acc) (([] : List (String × ℚ)), ([] : List (String × ℚ))))
  (rows.map fun r => (r.1, r.2.1), rows.map fun r => (r.1, r.2.2))

/-- One entry of the `neighbors_within_range` list built by `find_neighbors`:
a `(distance, bearing, other_node)` tuple. -/
structure Cand where
  distance : ℚ
  bearing : ℚ
  node : SphereNodePanorama
deriving DecidableEq

/-- The candidate-collection loop of `find_neighbors` (`spheres.py:184-194`):
walk the target's distance-matrix row in insertion order, skip self, keep
nodes within range that are present in the index with a valid position, and
look up each kept node's bearing from the target. -/
def collectCandidates (idx : List (String × SphereNodePanorama)) (targetId : String)
    (brow : List (String × ℚ)) (max_range : ℚ) : List (String × ℚ) → List Cand
  | [] => []
  | (oid, dist) :: rest =>
    if oid = targetId then collectCandidates idx targetId brow max_range rest
    else if dist ≤ max_range then
      match dictGet? oid idx with
      | some other =>
        if 2 ≤ other.gps.length then
          ⟨dist, (dictGet? oid brow).getD 0, other⟩ :: collectCandidates idx targetId brow max_range rest
        else collectCandidates idx targetId brow max_range rest
      | none => collectCandidates idx targetId brow max_range rest
    else collectCandidates idx targetId brow max_range rest

/-- The sort key relation for `neighbors_within_range.sort(key=lambda x: x[0])`. -/
def leDist (a b : Cand) : Prop := a.distance ≤ b.distance

instance : DecidableRel leDist := fun a b => inferInstanceAs (Decidable (a.distance ≤ b.distance))

instance : IsTotal Cand leDist := ⟨fun a b => le_total a.distance b.distance⟩

instance : IsTrans Cand leDist := ⟨fun _ _ _ hab hbc => le_trans hab hbc⟩

/-- Circular angular distance between two bearings
(`min(|b1-b2|, 360-|b1-b2|)`, `spheres.py:211-213`). -/
def circDiff (b1 b2 : ℚ) : ℚ := min |b1 - b2| (360 - |b1 - b2|)

/-- The inner separation check of the greedy selection loop
(`spheres.py:209-216`): a candidate bearing is admissible iff its circular
difference from every already-selected bearing is not below the minimum. -/
def is_separated (min_sep : ℚ) (bearing : ℚ) (selected_bearings : List ℚ) : Bool :=
  selected_bearings.all fun sb => decide (min_sep ≤ circDiff bearing sb)

/-- The greedy selection loop of `find_neighbors` (`spheres.py:207-224`):
process the distance-sorted candidates in order, admit each candidate that is
angularly separated from all previously admitted ones, and stop as soon as
`sectors` candidates have been admitted.  `selected_bearings` is maintained in
lockstep with `selected_neighbors` in the source and therefore equals
`selected.map Cand.bearing`. -/
def selectLoop (sectors : ℤ) (min_sep : ℚ) : List Cand → List Cand → List Cand
  | [], selected => selected
  | c :: rest, selected =>
    if is_separated min_sep c.bearing (selected.map Cand.bearing) then
      if sectors ≤ ((selected.length + 1 : ℕ) : ℤ) then selected ++ [c]
      else selectLoop sectors min_sep rest (selected ++ [c])
    else selectLoop sectors min_sep rest selected

/-- `SpatialIndex.find_neighbors` (`spheres.py:152-231`): guard on the
target's position and on its presence in the distance matrix, collect the
in-range candidates, sort them by distance (stably), and greedily select at
most `sectors` candidates with minimum angular separation
`360 / sectors / 2`, returning each as a minimal `SphereNode`.
(The `SphereNode(...)` constructor revalidates `gps`; the values come from
already-validated indexed nodes, so the construction succeeds.)
With `sectors = 0` and a nonempty candidate list, the Python code raises
`ZeroDivisionError` where Lean's total division yields `360 / 0 = 0`; every
theorem below therefore assumes a positive sector count. -/
def find_neighbors (idx : List (String × SphereNodePanorama))
    (dmat bmat : List (String × List (String × ℚ)))
    (target : SphereNodePanorama) (max_range : ℚ) (sectors : ℤ) : List SphereNode :=
  if target.gps.length < 2 then []
  else
    match dictGet? target.id dmat with
    | none => []
    | some drow =>
      let brow := (dictGet? target.id bmat).getD []
      let sorted := List.insertionSort leDist (collectCandidates idx target.id brow max_range drow)
      if sorted.isEmpty then []
      else
        let min_sep : ℚ := 360 / (sectors : ℚ) / 2
        (selectLoop sectors min_sep sorted []).map fun c => ⟨c.node.id, c.node.gps⟩

/-- `ensure_data_loaded` (`spheres.py:346-361`): when the index is empty,
fetch and parse all projects, add every node, compute the matrices and return
the freshly fetched list (duplicates included); otherwise return
`list(_spatial_index.values())` without touching the network. -/
def ensure_data_loaded (hdist hbear : ℚ → ℚ → ℚ → ℚ → ℚ) (projects : List Project)
    (st : SphereState) : SphereState × List SphereNodePanorama :=
  if st.spatial_index.isEmpty then
    let nodes := get_all_sphere_nodes projects
    let st1 := nodes.foldl add_node st
    let mats := computeMatrices hdist hbear st1.spatial_index
    ({ st1 with distance_matrix := mats.1, bearing_matrix := mats.2 }, nodes)
  else (st, st.spatial_index.map Prod.snd)

/-- The `GET /spheres/{node_id}` handler `get_sphere_panorama_and_links`
(`spheres.py:381-434`): ensure data is loaded, look up the target (404 when
absent), compute neighbors, and return a freshly constructed copy of the
target with `links` set to the neighbors. -/
def get_sphere_panorama_and_links (hdist hbear : ℚ → ℚ → ℚ → ℚ → ℚ)
    (projects : List Project) (st : SphereState) (node_id : String)
    (max_range : ℚ) (sectors : ℤ) : SphereState × Except Nat SphereNodePanorama :=
  let st1 := (ensure_data_loaded hdist hbear projects st).1
  match dictGet? node_id st1.spatial_index with
  | none => (st1, .error 404)
  | some target =>
    let neighbors := find_neighbors st1.spatial_index st1.distance_matrix st1.bearing_matrix
      target max_range sectors
    (st1, .ok { target with links := neighbors })

/-! ### Basic lemmas about the dictionary model -/

theorem dictGet?_mem {α : Type} {k : String} {v : α} :
    ∀ {l : List (String × α)}, dictGet? k l = some v → (k, v) ∈ l := by
  intro l
  induction l with
  | nil => intro h; simp [dictGet?] at h
  | cons p rest ih =>
    intro h
    rw [dictGet?] at h
    by_cases hk : p.1 = k
    · rw [if_pos hk] at h
      obtain ⟨k₀, v₀⟩ := p
      simp only at hk h
      subst hk
      simp [Option.some.injEq] at h
      simp [h]
    · rw [if_neg hk] at h
      exact List.mem_cons_of_mem _ (ih h)

theorem dictInsert_of_not_mem {α : Type} {k : String} (v : α) :
    ∀ {l : List (String × α)}, k ∉ l.map Prod.fst → dictInsert k v l = l ++ [(k, v)] := by
  intro l
  induction l with
  | nil => intro _; rfl
  | cons p rest ih =>
    intro h
    rw [List.map_cons, List.mem_cons, not_or] at h
    rw [dictInsert, if_neg (fun he => h.1 he.symm), ih h.2, List.cons_append]

/-! ### Lemmas about the greedy angular-separation loop -/

theorem circDiff_comm (b1 b2 : ℚ) : circDiff b1 b2 = circDiff b2 b1 := by
  unfold circDiff
  rw [abs_sub_comm]

theorem is_separated_iff {min_sep b : ℚ} {bs : List ℚ} :
    is_separated min_sep b bs = true ↔ ∀ sb ∈ bs, min_sep ≤ circDiff b sb := by
  simp [is_separated]

/-- The loop only ever appends to the accumulator. -/
theorem selectLoop_eq_append (sectors : ℤ) (min_sep : ℚ) (l : List Cand) :
    ∀ acc, ∃ ext, selectLoop sectors min_sep l acc = acc ++ ext := by
  induction l with
  | nil => intro acc; exact ⟨[], by simp [selectLoop]⟩
  | cons c rest ih =>
    intro acc
    rw [selectLoop]
    by_cases hsep : is_separated min_sep c.bearing (acc.map Cand.bearing)
    · rw [if_pos hsep]
      by_cases hcap : sectors ≤ ((acc.length + 1 : ℕ) : ℤ)
      · rw [if_pos hcap]; exact ⟨[c], rfl⟩
      · rw [if_neg hcap]
        obtain ⟨ext, hext⟩ := ih (acc ++ [c])
        exact ⟨[c] ++ ext, by rw [hext, List.append_assoc]⟩
    · rw [if_neg hsep]; exact ih acc

/-- Members of the loop's output come from the accumulator or the input. -/
theorem mem_selectLoop (sectors : ℤ) (min_sep : ℚ) (l : List Cand) :
    ∀ acc x, x ∈ selectLoop sectors min_sep l acc → x ∈ acc ∨ x ∈ l := by
  induction l with
  | nil => intro acc x h; rw [selectLoop] at h; exact Or.inl h
  | cons c rest ih =>
    intro acc x h
    rw [selectLoop] at h
    by_cases hsep : is_separated min_sep c.bearing (acc.map Cand.bearing)
    · rw [if_pos hsep] at h
      by_cases hcap : sectors ≤ ((acc.length + 1 : ℕ) : ℤ)
      · rw [if_pos hcap] at h
        rcases List.mem_append.mp h with h | h
        · exact Or.inl h
        · exact Or.inr (by simpa using Or.inl (List.mem_singleton.mp h))
      · rw [if_neg hcap] at h
        rcases ih _ x h with h | h
        · rcases List.mem_append.mp h with h | h
          · exact Or.inl h
          · exact Or.inr (by simpa using Or.inl (List.mem_singleton.mp h))
        · exact Or.inr (List.mem_cons_of_mem _ h)
    · rw [if_neg hsep] at h
      rcases ih _ x h with h | h
      · exact Or.inl h
      · exact Or.inr (List.mem_cons_of_mem _ h)

/-- Never more than `sectors` selected, provided the accumulator is below the cap. -/
theorem selectLoop_length_le (sectors : ℤ) (min_sep : ℚ) (l : List Cand) :
    ∀ acc, (acc.length : ℤ) < sectors →
      ((selectLoop sectors min_sep l acc).length : ℤ) ≤ sectors := by
  induction l with
  | nil => intro acc h; rw [selectLoop]; exact le_of_lt h
  | cons c rest ih =>
    intro acc h
    rw [selectLoop]
    by_cases hsep : is_separated min_sep c.bearing (acc.map Cand.bearing)
    · rw [if_pos hsep]
      by_cases hcap : sectors ≤ ((acc.length + 1 : ℕ) : ℤ)
      · rw [if_pos hcap]
        have : ((acc ++ [c]).length : ℤ) = (acc.length : ℤ) + 1 := by
          simp
        rw [this]
        exact_mod_cast Int.add_one_le_iff.mpr h
      · rw [if_neg hcap]
        apply ih
        have : ((acc ++ [c]).length : ℤ) = ((acc.length + 1 : ℕ) : ℤ) := by simp
        rw [this]
        exact lt_of_not_le hcap
    · rw [if_neg hsep]; exact ih acc h

/-- Selected candidates are pairwise angularly separated. -/
theorem selectLoop_pairwise (sectors : ℤ) (min_sep : ℚ) (l : List Cand) :
    ∀ acc, acc.Pairwise (fun c₁ c₂ => min_sep ≤ circDiff c₁.bearing c₂.bearing) →
      (selectLoop sectors min_sep l acc).Pairwise
        (fun c₁ c₂ => min_sep ≤ circDiff c₁.bearing c₂.bearing) := by
  induction l with
  | nil => intro acc h; rw [selectLoop]; exact h
  | cons c rest ih =>
    intro acc h
    rw [selectLoop]
    by_cases hsep : is_separated min_sep c.bearing (acc.map Cand.bearing)
    · have hall : ∀ x ∈ acc, min_sep ≤ circDiff x.bearing c.bearing := by
        intro x hx
        have := is_separated_iff.mp hsep x.bearing (List.mem_map_of_mem Cand.bearing hx)
        rwa [circDiff_comm] at this
      have h' : (acc ++ [c]).Pairwise (fun c₁ c₂ => min_sep ≤ circDiff c₁.bearing c₂.bearing) := by
        rw [List.pairwise_append]
        refine ⟨h, List.pairwise_singleton _ _, ?_⟩
        intro x hx y hy
        rw [List.mem_singleton] at hy
        subst hy
        exact hall x hx
      rw [if_pos hsep]
      by_cases hcap : sectors ≤ ((acc.length + 1 : ℕ) : ℤ)
      · rw [if_pos hcap]; exact h'
      · rw [if_neg hcap]; exact ih _ h'
    · rw [if_neg hsep]; exact ih acc h

/-- Processing a prefix of the candidate list selects at most as many
candidates as processing the whole list: the loop's decisions on the shared
prefix are identical, and afterwards the longer run can only add. -/
theorem selectLoop_length_mono (sectors : ℤ) (min_sep : ℚ) (l₁ : List Cand) :
    ∀ (l₂ : List Cand) (acc : List Cand),
      (selectLoop sectors min_sep l₁ acc).length ≤
        (selectLoop sectors min_sep (l₁ ++ l₂) acc).length := by
  induction l₁ with
  | nil =>
    intro l₂ acc
    obtain ⟨ext, hext⟩ := selectLoop_eq_append sectors min_sep l₂ acc
    rw [selectLoop, List.nil_append, hext]
    simp
  | cons c rest ih =>
    intro l₂ acc
    rw [List.cons_append, selectLoop, selectLoop]
    by_cases hsep : is_separated min_sep c.bearing (acc.map Cand.bearing)
    · rw [if_pos hsep, if_pos hsep]
      by_cases hcap : sectors ≤ ((acc.length + 1 : ℕ) : ℤ)
      · rw [if_pos hcap, if_pos hcap]
      · rw [if_neg hcap, if_neg hcap]; exact ih l₂ (acc ++ [c])
    · rw [if_neg hsep, if_neg hsep]; exact ih l₂ acc

/-! ### Lemmas about candidate collection -/

/-- No candidate survives when every other node's cached distance exceeds the
range. -/
theorem collectCandidates_eq_nil (idx : List (String × SphereNodePanorama))
    (targetId : String) (brow : List (String × ℚ)) (max_range : ℚ) :
    ∀ row, (∀ p ∈ row, p.1 ≠ targetId → max_range < p.2) →
      collectCandidates idx targetId brow max_range row = [] := by
  intro row
  induction row with
  | nil => intro _; rfl
  | cons p rest ih =>
    intro h
    obtain ⟨oid, dist⟩ := p
    have hrest : ∀ q ∈ rest, q.1 ≠ targetId → max_range < q.2 := fun q hq => h q (List.mem_cons_of_mem _ hq)
    rw [collectCandidates]
    by_cases h1 : oid = targetId
    · rw [if_pos h1]; exact ih hrest
    · rw [if_neg h1]
      have : ¬ dist ≤ max_range := not_le.mpr (h (oid, dist) (List.mem_cons_self _ _) h1)
      rw [if_neg this]
      exact ih hrest

/-- A well-formed in-range row entry always yields at least one candidate. -/
theorem collectCandidates_ne_nil (idx : List (String × SphereNodePanorama))
    (targetId : String) (brow : List (String × ℚ)) (max_range : ℚ)
    {oid : String} {d : ℚ} {other : SphereNodePanorama}
    (hoid : oid ≠ targetId) (hd : d ≤ max_range)
    (hidx : dictGet? oid idx = some other) (hgps : 2 ≤ other.gps.length) :
    ∀ row, (oid, d) ∈ row → collectCandidates idx targetId brow max_range row ≠ [] := by
  intro row
  induction row with
  | nil => intro h; simp at h
  | cons p rest ih =>
    intro hmem
    obtain ⟨oid₀, d₀⟩ := p
    rcases List.mem_cons.mp hmem with h | h
    · injection h with ha hb
      subst ha
      subst hb
      rw [collectCandidates, if_neg hoid, if_pos hd]
      simp only [hidx, if_pos hgps]
      exact List.cons_ne_nil _ _
    · rw [collectCandidates]
      by_cases h1 : oid₀ = targetId
      · rw [if_pos h1]; exact ih h
      · rw [if_neg h1]
        by_cases h2 : d₀ ≤ max_range
        · rw [if_pos h2]
          split
          · split
            · exact List.cons_ne_nil _ _
            · exact ih h
          · exact ih h
        · rw [if_neg h2]; exact ih h

/-- Every collected candidate originates from an index entry, carrying the
bearing-matrix value for its row key. -/
theorem collectCandidates_mem (idx : List (String × SphereNodePanorama))
    (targetId : String) (brow : List (String × ℚ)) (max_range : ℚ) :
    ∀ {row : List (String × ℚ)} {c : Cand}, c ∈ collectCandidates idx targetId brow max_range row →
      ∃ oid, dictGet? oid idx = some c.node ∧ c.bearing = (dictGet? oid brow).getD 0 := by
  intro row
  induction row with
  | nil => intro c h; simp [collectCandidates] at h
  | cons p rest ih =>
    intro c h
    obtain ⟨oid, dist⟩ := p
    rw [collectCandidates] at h
    by_cases h1 : oid = targetId
    · rw [if_pos h1] at h; exact ih h
    · rw [if_neg h1] at h
      by_cases h2 : dist ≤ max_range
      · rw [if_pos h2] at h
        split at h
        · next other heq =>
            by_cases h4 : 2 ≤ other.gps.length
            · rw [if_pos h4] at h
              rcases List.mem_cons.mp h with h | h
              · subst h; exact ⟨oid, heq, rfl⟩
              · exact ih h
            · rw [if_neg h4] at h; exact ih h
        · exact ih h
      · rw [if_neg h2] at h; exact ih h

/-- Shrinking the range filters the candidate list by the distance bound. -/
theorem collectCandidates_filter (idx : List (String × SphereNodePanorama))
    (targetId : String) (brow : List (String × ℚ)) {r₁ r₂ : ℚ} (h : r₁ ≤ r₂) :
    ∀ row, collectCandidates idx targetId brow r₁ row =
      (collectCandidates idx targetId brow r₂ row).filter fun c => decide (c.distance ≤ r₁) := by
  intro row
  induction row with
  | nil => rfl
  | cons p rest ih =>
    obtain ⟨oid, dist⟩ := p
    rw [collectCandidates, collectCandidates]
    by_cases h1 : oid = targetId
    · rw [if_pos h1, if_pos h1]; exact ih
    · rw [if_neg h1, if_neg h1]
      by_cases h2 : dist ≤ r₁
      · rw [if_pos h2, if_pos (le_trans h2 h)]
        split
        · split
          · rw [List.filter_cons]
            next h4 =>
              rw [if_pos (by simpa using h2)]
              exact congrArg _ ih
          · exact ih
        · exact ih
      · rw [if_neg h2]
        by_cases h2' : dist ≤ r₂
        · rw [if_pos h2']
          split
          · split
            · rw [List.filter_cons, if_neg (by simpa using h2)]
              exact ih
            · exact ih
          · exact ih
        · rw [if_neg h2']; exact ih

/-! ### Stability of the distance sort: filtering by a distance threshold
commutes with the (stable) sort, so the candidates of a smaller range form a
prefix of the sorted candidates of a larger range. -/

theorem filter_orderedInsert (p : Cand → Bool)
    (hp : ∀ a b : Cand, leDist a b → p b = true → p a = true) (a : Cand) :
    ∀ l : List Cand, l.Sorted leDist →
      (List.orderedInsert leDist a l).filter p =
        if p a then List.orderedInsert leDist a (l.filter p) else l.filter p := by
  intro l
  induction l with
  | nil =>
    intro _
    by_cases hpa : p a <;> simp [List.orderedInsert, List.filter, hpa]
  | cons b t ih =>
    intro hsorted
    have ih' := ih hsorted.of_cons
    rw [List.orderedInsert]
    by_cases hab : leDist a b
    · rw [if_pos hab]
      by_cases hpb : p b
      · by_cases hpa : p a <;>
          simp [List.filter_cons, hpa, hpb, List.orderedInsert, hab]
      · have ht : t.filter p = [] := List.filter_eq_nil_iff.mpr fun c hc hpc =>
          hpb (hp b c (List.rel_of_sorted_cons hsorted c hc) hpc)
        by_cases hpa : p a <;>
          simp [List.filter_cons, hpa, hpb, ht, List.orderedInsert]
    · rw [if_neg hab]
      by_cases hpb : p b
      · by_cases hpa : p a <;>
          simp [List.filter_cons, hpa, hpb, List.orderedInsert, hab, ih']
      · by_cases hpa : p a <;>
          simp [List.filter_cons, hpa, hpb, ih']

theorem filter_insertionSort (p : Cand → Bool)
    (hp : ∀ a b : Cand, leDist a b → p b = true → p a = true) :
    ∀ l : List Cand,
      (List.insertionSort leDist l).filter p = List.insertionSort leDist (l.filter p) := by
  intro l
  induction l with
  | nil => rfl
  | cons a t ih =>
    rw [List.insertionSort,
      filter_orderedInsert p hp a _ (List.sorted_insertionSort leDist t), List.filter_cons]
    by_cases hpa : p a
    · rw [if_pos hpa, if_pos (by simpa using hpa), ih, List.insertionSort]
    · rw [if_neg hpa, if_neg (by simpa using hpa), ih]

/-- On a distance-sorted list, filtering by a distance threshold is the same
as taking the longest prefix satisfying it. -/
theorem sorted_filter_eq_takeWhile (p : Cand → Bool)
    (hp : ∀ a b : Cand, leDist a b → p b = true → p a = true) :
    ∀ l : List Cand, l.Sorted leDist → l.filter p = l.takeWhile p := by
  intro l
  induction l with
  | nil => intro _; rfl
  | cons a t ih =>
    intro hsorted
    by_cases hpa : p a
    · rw [List.filter_cons, if_pos (by simpa using hpa), List.takeWhile_cons,
        if_pos (by simpa using hpa), ih hsorted.of_cons]
    · have ht : t.filter p = [] := by
        apply List.filter_eq_nil_iff.mpr
        intro c hc hpc
        exact hpa (hp a c (List.rel_of_sorted_cons hsorted c hc) hpc)
      rw [List.filter_cons, if_neg (by simpa using hpa), ht, List.takeWhile_cons,
        if_neg (by simpa using hpa)]

/-- States produced by `add_node` key every indexed node under its own id. -/
def wellFormedIndex (idx : List (String × SphereNodePanorama)) : Prop :=
  ∀ p ∈ idx, (Prod.snd p).id = p.1

instance (idx : List (String × SphereNodePanorama)) : Decidable (wellFormedIndex idx) :=
  inferInstanceAs (Decidable (∀ p ∈ idx, _))

/-- C8: For every target node whose id is absent from the geometry cache
(distance matrix), `find_neighbors` returns the empty list and never raises an
error, for all values of `max_range` and `sectors` (`spheres.py:179-181`;
totality of the Lean function is the "never raises" part). -/
theorem spheres_C8 (idx : List (String × SphereNodePanorama))
    (dmat bmat : List (String × List (String × ℚ)))
    (target : SphereNodePanorama) (max_range : ℚ) (sectors : ℤ)
    (h : dictGet? target.id dmat = none) :
    find_neighbors idx dmat bmat target max_range sectors = [] := by
  rw [find_neighbors]
  by_cases hg : target.gps.length < 2
  · rw [if_pos hg]
  · rw [if_neg hg]
    simp only [h]

/-- C6: For every target node, range and `sectors > 0`, `find_neighbors`
returns at most `sectors` neighbors (the loop stops as soon as the selection
reaches that size, `spheres.py:222-224`). -/
theorem spheres_C6 (idx : List (String × SphereNodePanorama))
    (dmat bmat : List (String × List (String × ℚ)))
    (target : SphereNodePanorama) (max_range : ℚ) (s : ℤ) (hs : 0 < s) :
    ((find_neighbors idx dmat bmat target max_range s).length : ℤ) ≤ s := by
  rw [find_neighbors]
  by_cases hg : target.gps.length < 2
  · rw [if_pos hg]; simpa using le_of_lt hs
  · rw [if_neg hg]
    cases hd : dictGet? target.id dmat with
    | none => simpa using le_of_lt hs
    | some drow =>
      dsimp only
      split
      · simpa using le_of_lt hs
      · rw [List.length_map]
        exact selectLoop_length_le s _ _ [] (by simpa using hs)

/-- C1: For every target node, range and `sectors ≥ 1`, the neighbors returned
by `find_neighbors` are the images of a selection of candidates whose bearings
from the target (the bearing-matrix values the algorithm reads,
`spheres.py:193`) are pairwise at least `360 / sectors / 2` apart in circular
angular distance (`spheres.py:202-224`). -/
theorem spheres_C1 (idx : List (String × SphereNodePanorama))
    (dmat bmat : List (String × List (String × ℚ)))
    (target : SphereNodePanorama) (max_range : ℚ) (s : ℤ) (hs : 1 ≤ s)
    (hwf : wellFormedIndex idx) :
    ∃ sel : List Cand,
      find_neighbors idx dmat bmat target max_range s =
        sel.map (fun c => SphereNode.mk c.node.id c.node.gps) ∧
      sel.Pairwise (fun c₁ c₂ => 360 / (s : ℚ) / 2 ≤ circDiff c₁.bearing c₂.bearing) ∧
      ∀ c ∈ sel, c.bearing =
        (dictGet? c.node.id ((dictGet? target.id bmat).getD [])).getD 0 := by
  rw [find_neighbors]
  by_cases hg : target.gps.length < 2
  · rw [if_pos hg]
    exact ⟨[], by simp, List.Pairwise.nil, by simp⟩
  · rw [if_neg hg]
    cases hd : dictGet? target.id dmat with
    | none => exact ⟨[], by simp, List.Pairwise.nil, by simp⟩
    | some drow =>
      dsimp only
      split
      · exact ⟨[], by simp, List.Pairwise.nil, by simp⟩
      · refine ⟨_, rfl, selectLoop_pairwise _ _ _ [] List.Pairwise.nil, ?_⟩
        intro c hc
        rcases mem_selectLoop _ _ _ [] c hc with h | h
        · simp at h
        · have hmem : c ∈ collectCandidates idx target.id
              ((dictGet? target.id bmat).getD []) max_range drow :=
            (List.perm_insertionSort leDist _).mem_iff.mp h
          obtain ⟨oid, hidx, hb⟩ := collectCandidates_mem _ _ _ _ hmem
          have hid : c.node.id = oid := hwf (oid, c.node) (dictGet?_mem hidx)
          rw [hid]
          exact hb

/-- C3: For a fixed target, sector count `s ≥ 1` and fixed geometry cache,
enlarging the range can only produce at least as many neighbors: the smaller
range's sorted candidate list is a prefix of the larger one's, and the greedy
loop is prefix-monotone in output length. -/
theorem spheres_C3 (idx : List (String × SphereNodePanorama))
    (dmat bmat : List (String × List (String × ℚ)))
    (target : SphereNodePanorama) (r₁ r₂ : ℚ) (s : ℤ) (hs : 1 ≤ s) (hr : r₁ ≤ r₂) :
    (find_neighbors idx dmat bmat target r₁ s).length ≤
      (find_neighbors idx dmat bmat target r₂ s).length := by
  rw [find_neighbors, find_neighbors]
  by_cases hg : target.gps.length < 2
  · rw [if_pos hg, if_pos hg]
  · rw [if_neg hg, if_neg hg]
    cases hd : dictGet? target.id dmat with
    | none => simp
    | some drow =>
      dsimp only
      have hp : ∀ a b : Cand, leDist a b →
          (fun c : Cand => decide (c.distance ≤ r₁)) b = true →
          (fun c : Cand => decide (c.distance ≤ r₁)) a = true := by
        intro a b hab hpb
        simp only [decide_eq_true_eq] at hpb ⊢
        exact le_trans hab hpb
      have hsorted_eq :
          List.insertionSort leDist
            (collectCandidates idx target.id ((dictGet? target.id bmat).getD []) r₁ drow) =
          (List.insertionSort leDist
            (collectCandidates idx target.id ((dictGet? target.id bmat).getD []) r₂ drow)).takeWhile
              fun c : Cand => decide (c.distance ≤ r₁) := by
        rw [collectCandidates_filter idx target.id _ hr drow, ← filter_insertionSort _ hp,
          sorted_filter_eq_takeWhile _ hp _ (List.sorted_insertionSort leDist _)]
      rw [hsorted_eq]
      by_cases h1 : ((List.insertionSort leDist
          (collectCandidates idx target.id ((dictGet? target.id bmat).getD []) r₂ drow)).takeWhile
            fun c : Cand => decide (c.distance ≤ r₁)).isEmpty
      · rw [if_pos h1]; simp
      · have h2 : ¬ (List.insertionSort leDist
            (collectCandidates idx target.id ((dictGet? target.id bmat).getD []) r₂ drow)).isEmpty := by
          intro h
          apply h1
          rw [List.isEmpty_iff] at h ⊢
          rw [h]
          rfl
        rw [if_neg h1, if_neg h2, List.length_map, List.length_map]
        have hmono := selectLoop_length_mono s (360 / (s : ℚ) / 2)
          ((List.insertionSort leDist
            (collectCandidates idx target.id ((dictGet? target.id bmat).getD []) r₂ drow)).takeWhile
              fun c : Cand => decide (c.distance ≤ r₁))
          ((List.insertionSort leDist
            (collectCandidates idx target.id ((dictGet? target.id bmat).getD []) r₂ drow)).dropWhile
              fun c : Cand => decide (c.distance ≤ r₁)) []
        rwa [List.takeWhile_append_dropWhile] at hmono

/-- C10: If the target has a valid position, is present in the distance
matrix, and at least one other indexed node (with a valid position) lies
within range, then `find_neighbors` returns a non-empty list, and the head of
the distance-sorted candidate list — the closest in-range candidate — is
always among the returned neighbors (the greedy loop admits the first
candidate unconditionally, `spheres.py:207-220`). -/
theorem spheres_C10 (idx : List (String × SphereNodePanorama))
    (dmat bmat : List (String × List (String × ℚ)))
    (target : SphereNodePanorama) (max_range : ℚ) (s : ℤ) (hs : 1 ≤ s)
    (hgps : ¬ target.gps.length < 2)
    {drow : List (String × ℚ)} (hrow : dictGet? target.id dmat = some drow)
    {oid : String} {d : ℚ} (hmem : (oid, d) ∈ drow) (hoid : oid ≠ target.id)
    (hd : d ≤ max_range)
    {other : SphereNodePanorama} (hidx : dictGet? oid idx = some other)
    (hogps : 2 ≤ other.gps.length) :
    find_neighbors idx dmat bmat target max_range s ≠ [] ∧
      ∀ c : Cand,
        (List.insertionSort leDist (collectCandidates idx target.id
            ((dictGet? target.id bmat).getD []) max_range drow)).head? = some c →
          SphereNode.mk c.node.id c.node.gps ∈ find_neighbors idx dmat bmat target max_range s := by
  have hcands : collectCandidates idx target.id
      ((dictGet? target.id bmat).getD []) max_range drow ≠ [] :=
    collectCandidates_ne_nil idx target.id _ max_range hoid hd hidx hogps drow hmem
  have hsort_ne : List.insertionSort leDist (collectCandidates idx target.id
      ((dictGet? target.id bmat).getD []) max_range drow) ≠ [] := by
    intro h
    apply hcands
    have hl := (List.perm_insertionSort leDist (collectCandidates idx target.id
      ((dictGet? target.id bmat).getD []) max_range drow)).length_eq
    rw [h] at hl
    exact List.eq_nil_of_length_eq_zero hl.symm
  obtain ⟨c₀, rest, hL⟩ := List.exists_cons_of_ne_nil hsort_ne
  have hsel : ∃ ext, selectLoop s (360 / (s : ℚ) / 2) (c₀ :: rest) [] = c₀ :: ext := by
    rw [selectLoop, if_pos (by rfl)]
    by_cases hcap : s ≤ ((([] : List Cand).length + 1 : ℕ) : ℤ)
    · rw [if_pos hcap]; exact ⟨[], rfl⟩
    · rw [if_neg hcap]
      obtain ⟨ext, hext⟩ := selectLoop_eq_append s (360 / (s : ℚ) / 2) rest [c₀]
      exact ⟨ext, hext⟩
  obtain ⟨ext, hext⟩ := hsel
  have hfind : find_neighbors idx dmat bmat target max_range s =
      (c₀ :: ext).map fun c => SphereNode.mk c.node.id c.node.gps := by
    rw [find_neighbors, if_neg hgps]
    simp only [hrow]
    rw [hL]
    rw [if_neg (by simp), hext]
  constructor
  · rw [hfind]; simp
  · intro c hc
    rw [hL] at hc
    have : c₀ = c := by simpa using hc
    subst this
    rw [hfind]
    exact List.mem_map_of_mem _ (List.mem_cons_self _ _)

/-- C4 (amended): with a distance-matrix row of nonnegative cached distances
(as haversine produces), a negative range yields no neighbors; a zero range
also yields none provided no other node lies at cached distance exactly 0
from the target.  (A coincident node, at distance 0, defeats the zero-range
case — see the counterexample.) -/
theorem spheres_C4_amended (idx : List (String × SphereNodePanorama))
    (dmat bmat : List (String × List (String × ℚ)))
    (target : SphereNodePanorama) (r : ℚ) (s : ℤ)
    {drow : List (String × ℚ)} (hrow : dictGet? target.id dmat = some drow)
    (hnn : ∀ p ∈ drow, (0 : ℚ) ≤ p.2)
    (hr : r < 0 ∨ (r = 0 ∧ ∀ p ∈ drow, p.1 ≠ target.id → p.2 ≠ 0)) :
    find_neighbors idx dmat bmat target r s = [] := by
  have hlt : ∀ p ∈ drow, p.1 ≠ target.id → r < p.2 := by
    intro p hp hne
    rcases hr with hr | ⟨hr0, hz⟩
    · exact lt_of_lt_of_le hr (hnn p hp)
    · rw [hr0]
      exact lt_of_le_of_ne (hnn p hp) (Ne.symm (hz p hp hne))
  rw [find_neighbors]
  by_cases hg : target.gps.length < 2
  · rw [if_pos hg]
  · rw [if_neg hg]
    simp only [hrow]
    rw [collectCandidates_eq_nil _ _ _ _ drow hlt]
    simp [List.insertionSort]

/-- All-zero stand-in for the geodesic functions.  On the inputs where its
value matters below, all involved points are coincident, and both the
haversine distance and the bearing of coincident points are exactly 0, so it
agrees with the real functions there. -/
def geoZero : ℚ → ℚ → ℚ → ℚ → ℚ := fun _ _ _ _ => 0

def cx4nodeA : SphereNodePanorama :=
  ⟨"cx4-a", [0, 0], "https://example.com/a.jpg", "https://example.com/a-thumb.jpg",
    [], none, none, none, none⟩

def cx4nodeB : SphereNodePanorama :=
  ⟨"cx4-b", [0, 0], "https://example.com/b.jpg", "https://example.com/b-thumb.jpg",
    [], none, none, none, none⟩

/-- The state reached by indexing two coincident nodes and computing the
matrices, exactly as `ensure_data_loaded` does. -/
def cx4state : SphereState :=
  let st := [cx4nodeA, cx4nodeB].foldl add_node SphereState.empty
  let mats := computeMatrices geoZero geoZero st.spatial_index
  { st with distance_matrix := mats.1, bearing_matrix := mats.2 }

/-- C4 counterexample: with another indexed node at cached distance 0 (two
nodes with identical coordinates), `find_neighbors(target, 0, s)` returns
that node, not the empty list — the claim fails at range exactly 0. -/
theorem spheres_C4_counterexample :
    find_neighbors cx4state.spatial_index cx4state.distance_matrix cx4state.bearing_matrix
        cx4nodeA 0 5 = [SphereNode.mk "cx4-b" [0, 0]] ∧
      find_neighbors cx4state.spatial_index cx4state.distance_matrix cx4state.bearing_matrix
        cx4nodeA 0 5 ≠ [] := by
  constructor
  · decide
  · decide

def cx2project : Project := ⟨"The Living Ice Project", .fail, "https://livingiceproject.com/"⟩

/-- C2: evaluation at the failing input.  When the only configured project's
GeoJSON fetch fails, `fetch_geojson_from_url` does raise
`HTTPException(500)`, but `get_all_sphere_nodes` swallows it
(`except Exception: continue`, `spheres.py:339-341`) and yields an empty node
list; the HTTP caller then observes a 404 from the node endpoint — never the
5xx the claim requires. -/
theorem spheres_C2_code_eval :
    fetch_geojson_from_url FetchResult.fail = .error 500 ∧
    get_all_sphere_nodes [cx2project] = [] ∧
    (get_sphere_panorama_and_links geoZero geoZero [cx2project]
        SphereState.empty "node-1" 10000 5).2 = .error 404 :=
  ⟨rfl, rfl, rfl⟩

/-- C7 (amended): coordinates that are missing or have fewer than two
elements are defaulted to `[0.0, 0.0]` and the node is produced (provided the
URL fields themselves validate); but coordinates with two or three elements
are used as-is, and when they violate the model's range validation the
construction fails and the feature is skipped — see the counterexample. -/
theorem spheres_C7_amended (f : Feature) (base_url : String)
    (hco : (f.geometry.coordinates.getD []).length < 2)
    (hurl : isHttpUrl (make_absolute_url base_url ((f.properties.filename).getD "")) = true ∧
        validate_image_url (make_absolute_url base_url ((f.properties.filename).getD "")) = true ∧
        isHttpUrl (make_absolute_url base_url ((f.properties.thumbnail).getD "")) = true ∧
        validate_image_url (make_absolute_url base_url ((f.properties.thumbnail).getD "")) = true) :
    ∃ n, parse_geojson_feature_to_sphere_node f base_url = .ok n ∧ n.gps = [0, 0] := by
  obtain ⟨h1, h2, h3, h4⟩ := hurl
  have hchecks : panoramaChecks [0, 0]
      (make_absolute_url base_url ((f.properties.filename).getD ""))
      (make_absolute_url base_url ((f.properties.thumbnail).getD "")) = true := by
    rw [panoramaChecks, h1, h2, h3, h4]
    decide
  simp only [parse_geojson_feature_to_sphere_node, SphereNodePanorama.mk?]
  rw [if_neg (not_le.mpr hco), if_pos hchecks]
  exact ⟨_, rfl, rfl⟩

def cx7feature : Feature :=
  ⟨⟨some "https://example.com/p.jpg", some "cx7-node", some "https://example.com/t.jpg",
    none, none, none, none⟩, ⟨some [200, 0]⟩⟩

/-- C7 counterexample: a feature with malformed (out-of-range) coordinates
`[200, 0]` is neither defaulted to `[0.0, 0.0]` nor kept: parsing raises a
pydantic validation error (longitude 200 fails `validate_hours`), and
`get_all_sphere_nodes` skips the feature — it is dropped on account of its
coordinates. -/
theorem spheres_C7_counterexample :
    parse_geojson_feature_to_sphere_node cx7feature "" = .error () ∧
    get_all_sphere_nodes [⟨"P", .ok "FeatureCollection" [cx7feature], ""⟩] = [] :=
  ⟨rfl, rfl⟩

/-- C9: on a warm state (index already populated), the node endpoint leaves
the shared state — in particular the indexed entry for the requested id —
exactly as it was, and returns a fresh copy of the target whose only changed
field is `links`, populated from `find_neighbors` (`spheres.py:408-434`). -/
theorem spheres_C9 (hdist hbear : ℚ → ℚ → ℚ → ℚ → ℚ) (projects : List Project)
    (st : SphereState) (node_id : String) (max_range : ℚ) (sectors : ℤ)
    (hne : st.spatial_index ≠ []) {target : SphereNodePanorama}
    (hlook : dictGet? node_id st.spatial_index = some target) :
    get_sphere_panorama_and_links hdist hbear projects st node_id max_range sectors =
      (st, .ok { target with links := (find_neighbors st.spatial_index st.distance_matrix
        st.bearing_matrix target max_range sectors) }) := by
  have hemp : st.spatial_index.isEmpty = false := by
    cases h : st.spatial_index with
    | nil => exact absurd h hne
    | cons a l => rfl
  rw [get_sphere_panorama_and_links, ensure_data_loaded]
  simp only [hemp, Bool.false_eq_true, if_false, hlook]

/-! ### Support lemmas for the load path (claim C5) -/

theorem tagProject_gps (project_name : String) (node : SphereNodePanorama) :
    (tagProject project_name node).gps = node.gps := by
  rw [tagProject]
  split
  · rfl
  · split <;> rfl

/-- Every successfully parsed node satisfies the `conlist` length constraint. -/
theorem parse_gps_valid {f : Feature} {base_url : String} {n : SphereNodePanorama}
    (h : parse_geojson_feature_to_sphere_node f base_url = .ok n) : 2 ≤ n.gps.length := by
  simp only [parse_geojson_feature_to_sphere_node, SphereNodePanorama.mk?] at h
  repeat' split at h
  all_goals
    first
      | (injection h with h
         subst h
         simp)
      | (exact absurd h (by simp))

theorem ingestFeature_gps {project_name base_url : String}
    {acc : List SphereNodePanorama} {f : Feature}
    (hacc : ∀ n ∈ acc, 2 ≤ n.gps.length) :
    ∀ n ∈ ingestFeature project_name base_url acc f, 2 ≤ n.gps.length := by
  intro n hn
  rw [ingestFeature] at hn
  split at hn
  · next node hparse =>
      rcases List.mem_append.mp hn with h | h
      · exact hacc n h
      · rw [List.mem_singleton] at h
        subst h
        rw [tagProject_gps]
        exact parse_gps_valid hparse
  · exact hacc n hn

theorem foldl_ingest_gps (project_name base_url : String) :
    ∀ (features : List Feature) (acc : List SphereNodePanorama),
      (∀ n ∈ acc, 2 ≤ n.gps.length) →
      ∀ n ∈ features.foldl (ingestFeature project_name base_url) acc, 2 ≤ n.gps.length := by
  intro features
  induction features with
  | nil => intro acc hacc; exact hacc
  | cons f rest ih =>
    intro acc hacc
    rw [List.foldl_cons]
    exact ih _ (ingestFeature_gps hacc)

theorem processProject_gps {p : Project} {nodes : List SphereNodePanorama}
    (h : processProject p = .ok nodes) : ∀ n ∈ nodes, 2 ≤ n.gps.length := by
  rw [processProject] at h
  split at h
  · exact absurd h (by simp)
  · split at h
    · injection h with h
      subst h
      exact foldl_ingest_gps _ _ _ [] (by simp)
    · injection h with h
      subst h
      intro n hn
      simp at hn

theorem accumulateProject_gps {all_nodes : List SphereNodePanorama} {p : Project}
    (hacc : ∀ n ∈ all_nodes, 2 ≤ n.gps.length) :
    ∀ n ∈ accumulateProject all_nodes p, 2 ≤ n.gps.length := by
  intro n hn
  rw [accumulateProject] at hn
  split at hn
  · next nodes hok =>
      rcases List.mem_append.mp hn with h | h
      · exact hacc n h
      · exact processProject_gps hok n h
  · exact hacc n hn

/-- Every node produced by ingestion has at least two coordinates (the parser
either keeps a validated 2-3 element list or defaults to `[0.0, 0.0]`). -/
theorem get_all_gps (projects : List Project) :
    ∀ n ∈ get_all_sphere_nodes projects, 2 ≤ n.gps.length := by
  rw [get_all_sphere_nodes]
  have hgen : ∀ (ps : List Project) (acc : List SphereNodePanorama),
      (∀ n ∈ acc, 2 ≤ n.gps.length) →
      ∀ n ∈ ps.foldl accumulateProject acc, 2 ≤ n.gps.length := by
    intro ps
    induction ps with
    | nil => intro acc hacc; exact hacc
    | cons p rest ih =>
      intro acc hacc
      rw [List.foldl_cons]
      exact ih _ (accumulateProject_gps hacc)
  exact hgen projects [] (by simp)

/-- Adding nodes with pairwise-distinct fresh ids and valid positions appends
them to the index in order. -/
theorem foldl_add_node_index :
    ∀ (nodes : List SphereNodePanorama) (st : SphereState),
      (nodes.map SphereNodePanorama.id).Nodup →
      (∀ n ∈ nodes, 2 ≤ n.gps.length) →
      (∀ n ∈ nodes, n.id ∉ st.spatial_index.map Prod.fst) →
      (nodes.foldl add_node st).spatial_index =
        st.spatial_index ++ nodes.map fun n => (n.id, n) := by
  intro nodes
  induction nodes with
  | nil => intro st _ _ _; simp
  | cons n rest ih =>
    intro st hnodup hgps hfresh
    rw [List.map_cons, List.nodup_cons] at hnodup
    have hstep : (add_node st n).spatial_index = st.spatial_index ++ [(n.id, n)] := by
      rw [add_node, if_pos (hgps n (List.mem_cons_self _ _))]
      exact dictInsert_of_not_mem _ (hfresh n (List.mem_cons_self _ _))
    rw [List.foldl_cons,
      ih (add_node st n) hnodup.2 (fun m hm => hgps m (List.mem_cons_of_mem _ hm)) ?hfresh,
      hstep, List.map_cons, List.append_assoc, List.singleton_append]
    case hfresh =>
      intro m hm
      rw [hstep, List.map_append, List.mem_append]
      rintro (h | h)
      · exact hfresh m (List.mem_cons_of_mem _ hm) h
      · simp only [List.map_cons, List.map_nil, List.mem_singleton] at h
        exact hnodup.1 (h ▸ List.mem_map_of_mem SphereNodePanorama.id hm)

/-- C5 (amended): starting cold, when the fetched collection is non-empty and
its node ids are pairwise distinct, a second `ensure_data_loaded` — whatever
the network would serve it — returns exactly the first call's state and node
list: no refetch, same count, same contents.  (With duplicate ids the two
calls disagree — see the counterexample.) -/
theorem spheres_C5_amended (hdist hbear : ℚ → ℚ → ℚ → ℚ → ℚ)
    (projects projects₂ : List Project)
    (hnodup : ((get_all_sphere_nodes projects).map SphereNodePanorama.id).Nodup)
    (hne : get_all_sphere_nodes projects ≠ []) :
    ensure_data_loaded hdist hbear projects₂
        (ensure_data_loaded hdist hbear projects SphereState.empty).1 =
      ensure_data_loaded hdist hbear projects SphereState.empty := by
  have hidx : ((get_all_sphere_nodes projects).foldl add_node SphereState.empty).spatial_index
      = (get_all_sphere_nodes projects).map fun n => (n.id, n) := by
    have h := foldl_add_node_index (get_all_sphere_nodes projects) SphereState.empty
      hnodup (get_all_gps projects) (by intro m _ hm; simp [SphereState.empty] at hm)
    simpa [SphereState.empty] using h
  have hcold : SphereState.empty.spatial_index.isEmpty = true := rfl
  have hfst : (ensure_data_loaded hdist hbear projects SphereState.empty).1.spatial_index
      = (get_all_sphere_nodes projects).map fun n => (n.id, n) := by
    rw [ensure_data_loaded, if_pos hcold]
    exact hidx
  have hsnd : (ensure_data_loaded hdist hbear projects SphereState.empty).2
      = get_all_sphere_nodes projects := by
    rw [ensure_data_loaded, if_pos hcold]
  have hemp : (ensure_data_loaded hdist hbear projects
      SphereState.empty).1.spatial_index.isEmpty = false := by
    rw [hfst]
    cases hc : get_all_sphere_nodes projects with
    | nil => exact absurd hc hne
    | cons a l => rfl
  rw [ensure_data_loaded]
  simp only [hemp, Bool.false_eq_true, if_false]
  rw [hfst]
  rw [Prod.ext_iff]
  refine ⟨rfl, ?_⟩
  rw [hsnd]
  rw [List.map_map]
  have hcomp : (Prod.snd ∘ fun n : SphereNodePanorama => (n.id, n)) = id := rfl
  rw [hcomp, List.map_id]

def cx5feature : Feature :=
  ⟨⟨some "https://example.com/p.jpg", some "cx5-node", some "https://example.com/t.jpg",
    none, none, none, none⟩, ⟨some [1, 2]⟩⟩

def cx5project : Project := ⟨"P", .ok "FeatureCollection" [cx5feature, cx5feature], ""⟩

/-- C5 counterexample: a fetched collection with two features sharing one
node id.  The first `ensure_data_loaded` returns both fetched nodes (2), the
second returns the deduplicated index contents (1) — the two calls differ in
node count, refuting idempotence for duplicate-id collections. -/
theorem spheres_C5_counterexample :
    (ensure_data_loaded geoZero geoZero [cx5project] SphereState.empty).2.length = 2 ∧
    (ensure_data_loaded geoZero geoZero [cx5project]
      (ensure_data_loaded geoZero geoZero [cx5project] SphereState.empty).1).2.length = 1 := by
  constructor
  · decide
  · decide

/-! ### Concrete fixtures used by the witnesses -/

def wNodeA : SphereNodePanorama :=
  ⟨"w-a", [0, 0], "https://example.com/wa.jpg", "https://example.com/wa-t.jpg",
    [], none, none, none, none⟩

def wNodeB : SphereNodePanorama :=
  ⟨"w-b", [1, 0], "https://example.com/wb.jpg", "https://example.com/wb-t.jpg",
    [], none, none, none, none⟩

def wNodeC : SphereNodePanorama :=
  ⟨"w-c", [0, 1], "https://example.com/wc.jpg", "https://example.com/wc-t.jpg",
    [], none, none, none, none⟩

def wNodeD : SphereNodePanorama :=
  ⟨"w-d", [-1, 0], "https://example.com/wd.jpg", "https://example.com/wd-t.jpg",
    [], none, none, none, none⟩

def wIdx : List (String × SphereNodePanorama) :=
  [("w-a", wNodeA), ("w-b", wNodeB), ("w-c", wNodeC), ("w-d", wNodeD)]

def wRow : List (String × ℚ) :=
  [("w-a", 0), ("w-b", 100), ("w-c", 150), ("w-d", 200)]

def wDmat : List (String × List (String × ℚ)) := [("w-a", wRow)]

def wBmat : List (String × List (String × ℚ)) :=
  [("w-a", [("w-a", 0), ("w-b", 90), ("w-c", 0), ("w-d", 270)])]

def wState : SphereState := ⟨wIdx, wDmat, wBmat⟩

theorem spheres_C1_witness :
    ((1 : ℤ) ≤ 4 ∧ wellFormedIndex wIdx) ∧
      ∃ sel : List Cand,
        find_neighbors wIdx wDmat wBmat wNodeA 1000 4 =
          sel.map (fun c => SphereNode.mk c.node.id c.node.gps) ∧
        sel.Pairwise (fun c₁ c₂ => 360 / ((4 : ℤ) : ℚ) / 2 ≤ circDiff c₁.bearing c₂.bearing) ∧
        ∀ c ∈ sel, c.bearing =
          (dictGet? c.node.id ((dictGet? wNodeA.id wBmat).getD [])).getD 0 :=
  ⟨⟨by decide, by decide⟩,
    spheres_C1 wIdx wDmat wBmat wNodeA 1000 4 (by decide) (by decide)⟩

theorem spheres_C3_witness :
    ((1 : ℤ) ≤ 4 ∧ (120 : ℚ) ≤ 1000) ∧
      (find_neighbors wIdx wDmat wBmat wNodeA 120 4).length ≤
        (find_neighbors wIdx wDmat wBmat wNodeA 1000 4).length :=
  ⟨⟨by decide, by decide⟩,
    spheres_C3 wIdx wDmat wBmat wNodeA 120 1000 4 (by decide) (by decide)⟩

theorem spheres_C4_amended_witness :
    (dictGet? wNodeA.id wDmat = some wRow ∧
      (∀ p ∈ wRow, (0 : ℚ) ≤ p.2) ∧
      ((-5 : ℚ) < 0 ∨ ((-5 : ℚ) = 0 ∧ ∀ p ∈ wRow, p.1 ≠ wNodeA.id → p.2 ≠ 0))) ∧
      find_neighbors wIdx wDmat wBmat wNodeA (-5) 3 = [] :=
  ⟨⟨by decide, by decide, Or.inl (by decide)⟩,
    @spheres_C4_amended wIdx wDmat wBmat wNodeA (-5) 3 wRow (by decide) (by decide)
      (Or.inl (by decide))⟩

def w5featA : Feature :=
  ⟨⟨some "https://example.com/w5a.jpg", some "w5-a", some "https://example.com/w5a-t.jpg",
    none, none, none, none⟩, ⟨some [1, 2]⟩⟩

def w5featB : Feature :=
  ⟨⟨some "https://example.com/w5b.jpg", some "w5-b", some "https://example.com/w5b-t.jpg",
    none, none, none, none⟩, ⟨some [3, 4]⟩⟩

def w5project : Project := ⟨"W5", .ok "FeatureCollection" [w5featA, w5featB], ""⟩

/-- The second call is handed a project whose fetch now fails: since the index
is warm, the network is never consulted and the first call's result is
returned unchanged. -/
def w5fail : Project := ⟨"W5", .fail, ""⟩

theorem spheres_C5_amended_witness :
    (((get_all_sphere_nodes [w5project]).map SphereNodePanorama.id).Nodup ∧
      get_all_sphere_nodes [w5project] ≠ []) ∧
      ensure_data_loaded geoZero geoZero [w5fail]
          (ensure_data_loaded geoZero geoZero [w5project] SphereState.empty).1 =
        ensure_data_loaded geoZero geoZero [w5project] SphereState.empty :=
  ⟨⟨by decide, by decide⟩,
    spheres_C5_amended geoZero geoZero [w5project] [w5fail] (by decide) (by decide)⟩

theorem spheres_C6_witness :
    (0 : ℤ) < 4 ∧
      ((find_neighbors wIdx wDmat wBmat wNodeA 1000 4).length : ℤ) ≤ 4 :=
  ⟨by decide, spheres_C6 wIdx wDmat wBmat wNodeA 1000 4 (by decide)⟩

def w7feature : Feature :=
  ⟨⟨some "https://example.com/w7.jpg", some "w7", some "https://example.com/w7-t.jpg",
    none, none, none, none⟩, ⟨none⟩⟩

theorem spheres_C7_amended_witness :
    ((w7feature.geometry.coordinates.getD []).length < 2 ∧
      isHttpUrl (make_absolute_url "" ((w7feature.properties.filename).getD "")) = true ∧
      validate_image_url (make_absolute_url "" ((w7feature.properties.filename).getD "")) = true ∧
      isHttpUrl (make_absolute_url "" ((w7feature.properties.thumbnail).getD "")) = true ∧
      validate_image_url (make_absolute_url "" ((w7feature.properties.thumbnail).getD "")) = true) ∧
      ∃ n, parse_geojson_feature_to_sphere_node w7feature "" = .ok n ∧ n.gps = [0, 0] :=
  ⟨⟨by decide, by decide, by decide, by decide, by decide⟩,
    spheres_C7_amended w7feature "" (by decide) ⟨by decide, by decide, by decide, by decide⟩⟩

theorem spheres_C8_witness :
    dictGet? wNodeB.id wDmat = none ∧
      find_neighbors wIdx wDmat wBmat wNodeB 500 5 = [] :=
  ⟨by decide, spheres_C8 wIdx wDmat wBmat wNodeB 500 5 (by decide)⟩

theorem spheres_C9_witness :
    (wState.spatial_index ≠ [] ∧ dictGet? "w-a" wState.spatial_index = some wNodeA) ∧
      get_sphere_panorama_and_links geoZero geoZero [] wState "w-a" 1000 4 =
        (wState, .ok { wNodeA with links := (find_neighbors wState.spatial_index
          wState.distance_matrix wState.bearing_matrix wNodeA 1000 4) }) :=
  ⟨⟨by decide, by decide⟩,
    spheres_C9 geoZero geoZero [] wState "w-a" 1000 4 (by decide) (by decide)⟩

theorem spheres_C10_witness :
    ((1 : ℤ) ≤ 4 ∧ ¬ wNodeA.gps.length < 2 ∧
      dictGet? wNodeA.id wDmat = some wRow ∧
      ("w-b", (100 : ℚ)) ∈ wRow ∧ "w-b" ≠ wNodeA.id ∧ (100 : ℚ) ≤ 1000 ∧
      dictGet? "w-b" wIdx = some wNodeB ∧ 2 ≤ wNodeB.gps.length) ∧
      (find_neighbors wIdx wDmat wBmat wNodeA 1000 4 ≠ [] ∧
        ∀ c : Cand,
          (List.insertionSort leDist (collectCandidates wIdx wNodeA.id
              ((dictGet? wNodeA.id wBmat).getD []) 1000 wRow)).head? = some c →
            SphereNode.mk c.node.id c.node.gps ∈ find_neighbors wIdx wDmat wBmat wNodeA 1000 4) :=
  ⟨⟨by decide, by decide, by decide, by decide, by decide, by decide, by decide, by decide⟩,
    @spheres_C10 wIdx wDmat wBmat wNodeA 1000 4 (by decide) (by decide) wRow (by decide)
      "w-b" 100 (by decide) (by decide) (by decide) wNodeB (by decide) (by decide)⟩

end SwiSpheres
